import Mathlib

/-!
Shallow embedding of the coffee-shop order-orchestration core
(domain entities, collaborator ports, the order service, and the
in-memory repository adapter), together with theorems checking the
specification's claims against it.

Rust `f64` prices are modelled as rationals; `Uuid` values and
timestamps are modelled as natural numbers supplied explicitly to the
constructors (they stand for the generator draws `Uuid::new_v4()` and
`Utc::now()`).  Fallible collaborator calls return `Except`; methods
taking `&mut self` in Rust are state-passing functions returning the
new state next to the result.
-/

namespace CoffeeShop

/-- Status of an order in its lifecycle (src/domain/order.rs, `OrderStatus`). -/
inductive OrderStatus
  | Pending
  | Paid
  | Preparing
  | Ready
  | Completed
  | Cancelled
deriving DecidableEq, Repr

/-- Customer entity (src/domain/customer.rs). -/
structure Customer where
  id : Nat
  name : String
  email : String
  phone : Option String
deriving DecidableEq, Repr

/-- A line item of an order (src/domain/order.rs, `OrderItem`). -/
structure OrderItem where
  beverage_name : String
  beverage_description : String
  price : ℚ
  quantity : Nat
deriving DecidableEq, Repr

/-- The order entity (src/domain/order.rs, `Order`). -/
structure Order where
  id : Nat
  customer : Customer
  items : List OrderItem
  status : OrderStatus
  created_at : Nat
  total_price : ℚ
  payment_id : Option String
deriving DecidableEq, Repr

/-- `Order::new`: computes the total as the running sum of
`price * quantity` over the items, and starts in `Pending` with no
payment id.  The fresh uuid and the creation timestamp are passed in
explicitly. -/
def Order.new (id : Nat) (created_at : Nat) (customer : Customer)
    (items : List OrderItem) : Order :=
  { id := id
    customer := customer
    items := items
    status := OrderStatus.Pending
    created_at := created_at
    total_price := items.foldl (fun acc it => acc + it.price * (it.quantity : ℚ)) 0
    payment_id := none }

/-- `Order::mark_as_paid`: unconditionally sets status `Paid` and stores the payment id. -/
def Order.mark_as_paid (o : Order) (payment_id : String) : Order :=
  { o with status := OrderStatus.Paid, payment_id := some payment_id }

/-- `Order::mark_as_preparing`: only effective from `Paid`. -/
def Order.mark_as_preparing (o : Order) : Order :=
  if o.status = OrderStatus.Paid then { o with status := OrderStatus.Preparing } else o

/-- `Order::mark_as_ready`: only effective from `Preparing`. -/
def Order.mark_as_ready (o : Order) : Order :=
  if o.status = OrderStatus.Preparing then { o with status := OrderStatus.Ready } else o

/-- `Order::mark_as_completed`: only effective from `Ready`. -/
def Order.mark_as_completed (o : Order) : Order :=
  if o.status = OrderStatus.Ready then { o with status := OrderStatus.Completed } else o

/-- `Order::cancel`: effective from every status except `Completed`. -/
def Order.cancel (o : Order) : Order :=
  if o.status = OrderStatus.Completed then o else { o with status := OrderStatus.Cancelled }

/-- The fields of an order that no lifecycle transition may touch
(everything but `status` and `payment_id`). -/
def Order.frozen (o : Order) : Nat × Customer × List OrderItem × Nat × ℚ :=
  (o.id, o.customer, o.items, o.created_at, o.total_price)

/-- Error type of the repository port (src/ports/repository.rs). -/
inductive RepositoryError
  | NotFound (msg : String)
  | SaveFailed (msg : String)
  | LoadFailed (msg : String)
  | AlreadyExists (msg : String)
deriving DecidableEq, Repr

/-- Error type of the payment port (src/ports/payment.rs). -/
inductive PaymentError
  | InsufficientFunds
  | InvalidCard
  | ProcessingFailed (msg : String)
  | NetworkError (msg : String)
deriving DecidableEq, Repr

/-- Error type of the notification port (src/ports/notifier.rs). -/
inductive NotificationError
  | SendFailed (msg : String)
  | InvalidRecipient (msg : String)
  | NetworkError (msg : String)
deriving DecidableEq, Repr

/-- Errors surfaced by the order service (src/services/order_service.rs). -/
inductive OrderServiceError
  | PaymentFailed (e : PaymentError)
  | StorageFailed (e : RepositoryError)
  | NotificationFailed (e : NotificationError)
  | OrderNotFound
  | InvalidOrder (msg : String)
deriving DecidableEq, Repr

/-- A beverage trait object, reduced to the three observations the order
service makes of it: `name()`, `description()`, `price()`
(src/domain/beverage.rs). -/
structure Beverage where
  name : String
  description : String
  price : ℚ
deriving DecidableEq, Repr

/-- The `OrderRepository` trait (src/ports/repository.rs), over an
arbitrary repository state type `σ`.  Methods taking `&mut self` return
the successor state in both outcomes; methods taking `&self` cannot
change the state and return only their result. -/
structure RepoOps (σ : Type) where
  save : σ → Order → Except RepositoryError Unit × σ
  find_by_id : σ → Nat → Except RepositoryError (Option Order)
  find_by_customer_email : σ → String → Except RepositoryError (List Order)
  list_all : σ → Except RepositoryError (List Order)
  update : σ → Order → Except RepositoryError Unit × σ
  delete : σ → Nat → Except RepositoryError Bool × σ

/-- The `Notifier` trait (src/ports/notifier.rs); all methods take `&self`. -/
structure NotifierOps where
  notify_order_placed : Order → Except NotificationError Unit
  notify_order_ready : Order → Except NotificationError Unit
  notify_order_cancelled : Order → Except NotificationError Unit

/-- The line items `place_order` builds from its beverages: one item per
beverage, quantity 1, price and texts taken from the beverage. -/
def itemsOf (beverages : List Beverage) : List OrderItem :=
  beverages.map (fun b =>
    { beverage_name := b.name
      beverage_description := b.description
      price := b.price
      quantity := 1 })

/-- `OrderService::place_order` (src/services/order_service.rs).
Validates non-emptiness, builds the items and the `Pending` order,
captures payment, marks the order `Paid`, saves it, then notifies
best-effort (a notification error is only printed, never returned).
`fresh_id` and `now` stand for the uuid and timestamp drawn inside
`Order::new`. -/
def place_order {σ : Type} (R : RepoOps σ) (pay : ℚ → Except PaymentError String)
    (N : NotifierOps) (st : σ) (fresh_id now : Nat)
    (customer : Customer) (beverages : List Beverage) :
    Except OrderServiceError Order × σ :=
  if beverages.isEmpty then
    (Except.error (OrderServiceError.InvalidOrder "Order must contain at least one item"), st)
  else
    let order := Order.new fresh_id now customer (itemsOf beverages)
    match pay order.total_price with
    | Except.error e => (Except.error (OrderServiceError.PaymentFailed e), st)
    | Except.ok payment_id =>
      let order := order.mark_as_paid payment_id
      match R.save st order with
      | (Except.error e, st2) => (Except.error (OrderServiceError.StorageFailed e), st2)
      | (Except.ok _, st2) =>
        let _warn := N.notify_order_placed order
        (Except.ok order, st2)

/-- `OrderService::get_order`: repository lookup, `None` mapped to
`OrderNotFound` and a repository error to `StorageFailed`.  The
repository state is returned alongside (the lookup takes `&self`). -/
def get_order {σ : Type} (R : RepoOps σ) (st : σ) (id : Nat) :
    Except OrderServiceError Order × σ :=
  match R.find_by_id st id with
  | Except.error e => (Except.error (OrderServiceError.StorageFailed e), st)
  | Except.ok none => (Except.error OrderServiceError.OrderNotFound, st)
  | Except.ok (some o) => (Except.ok o, st)

/-- `OrderService::list_customer_orders`: pure delegation to the repository. -/
def list_customer_orders {σ : Type} (R : RepoOps σ) (st : σ) (email : String) :
    Except OrderServiceError (List Order) × σ :=
  match R.find_by_customer_email st email with
  | Except.error e => (Except.error (OrderServiceError.StorageFailed e), st)
  | Except.ok l => (Except.ok l, st)

/-- `OrderService::list_all_orders`: pure delegation to the repository. -/
def list_all_orders {σ : Type} (R : RepoOps σ) (st : σ) :
    Except OrderServiceError (List Order) × σ :=
  match R.list_all st with
  | Except.error e => (Except.error (OrderServiceError.StorageFailed e), st)
  | Except.ok l => (Except.ok l, st)

/-- `OrderService::mark_order_ready`: load, apply `mark_as_ready`,
persist via `update`, notify best-effort. -/
def mark_order_ready {σ : Type} (R : RepoOps σ) (N : NotifierOps) (st : σ) (id : Nat) :
    Except OrderServiceError Unit × σ :=
  match (get_order R st id).1 with
  | Except.error e => (Except.error e, st)
  | Except.ok o =>
    let o := o.mark_as_ready
    match R.update st o with
    | (Except.error e, st2) => (Except.error (OrderServiceError.StorageFailed e), st2)
    | (Except.ok _, st2) =>
      let _warn := N.notify_order_ready o
      (Except.ok (), st2)

/-- `OrderService::cancel_order`: load, reject `Completed` orders with
`InvalidOrder`, otherwise apply `cancel`, persist via `update`, notify
best-effort. -/
def cancel_order {σ : Type} (R : RepoOps σ) (N : NotifierOps) (st : σ) (id : Nat) :
    Except OrderServiceError Unit × σ :=
  match (get_order R st id).1 with
  | Except.error e => (Except.error e, st)
  | Except.ok o =>
    if o.status = OrderStatus.Completed then
      (Except.error (OrderServiceError.InvalidOrder "Cannot cancel completed order"), st)
    else
      let o := o.cancel
      match R.update st o with
      | (Except.error e, st2) => (Except.error (OrderServiceError.StorageFailed e), st2)
      | (Except.ok _, st2) =>
        let _warn := N.notify_order_cancelled o
        (Except.ok (), st2)

/-- State of `MemoryOrderRepository` (src/adapters/memory_storage.rs):
its `HashMap<Uuid, Order>`, modelled as an association list. -/
abbrev Mem := List (Nat × Order)

/-- Key lookup in the map (`HashMap::get` / `contains_key`). -/
def Mem.find : Mem → Nat → Option Order
  | [], _ => none
  | p :: rest, id => if p.1 = id then some p.2 else Mem.find rest id

/-- Removal of a key (`HashMap::remove`, dropping the returned value). -/
def Mem.removeKey : Mem → Nat → Mem
  | [], _ => []
  | p :: rest, id =>
    if p.1 = id then Mem.removeKey rest id else p :: Mem.removeKey rest id

/-- `HashMap::insert`: binds `id` to `o`, replacing any previous binding. -/
def Mem.insert (m : Mem) (id : Nat) (o : Order) : Mem :=
  (id, o) :: Mem.removeKey m id

/-- `MemoryOrderRepository::save`: `AlreadyExists` when the id is
present, otherwise inserts the order under its id. -/
def MemoryOrderRepository.save (m : Mem) (o : Order) :
    Except RepositoryError Unit × Mem :=
  if (Mem.find m o.id).isSome then
    (Except.error (RepositoryError.AlreadyExists
      ("Order " ++ toString o.id ++ " already exists")), m)
  else
    (Except.ok (), Mem.insert m o.id o)

/-- `MemoryOrderRepository::find_by_id`: infallible lookup. -/
def MemoryOrderRepository.find_by_id (m : Mem) (id : Nat) :
    Except RepositoryError (Option Order) :=
  Except.ok (Mem.find m id)

/-- `MemoryOrderRepository::find_by_customer_email`: filter on the stored values. -/
def MemoryOrderRepository.find_by_customer_email (m : Mem) (email : String) :
    Except RepositoryError (List Order) :=
  Except.ok ((m.map (fun p => p.2)).filter (fun o => o.customer.email == email))

/-- `MemoryOrderRepository::list_all`: all stored values. -/
def MemoryOrderRepository.list_all (m : Mem) :
    Except RepositoryError (List Order) :=
  Except.ok (m.map (fun p => p.2))

/-- `MemoryOrderRepository::update`: `NotFound` when the id is absent,
otherwise replaces the binding. -/
def MemoryOrderRepository.update (m : Mem) (o : Order) :
    Except RepositoryError Unit × Mem :=
  if (Mem.find m o.id).isSome then
    (Except.ok (), Mem.insert m o.id o)
  else
    (Except.error (RepositoryError.NotFound
      ("Order " ++ toString o.id ++ " not found")), m)

/-- `MemoryOrderRepository::delete`: reports whether the id was bound
and removes it. -/
def MemoryOrderRepository.delete (m : Mem) (id : Nat) :
    Except RepositoryError Bool × Mem :=
  (Except.ok (Mem.find m id).isSome, Mem.removeKey m id)

/-- The in-memory repository packaged as an `OrderRepository` instance. -/
def memRepo : RepoOps Mem :=
  { save := MemoryOrderRepository.save
    find_by_id := MemoryOrderRepository.find_by_id
    find_by_customer_email := MemoryOrderRepository.find_by_customer_email
    list_all := MemoryOrderRepository.list_all
    update := MemoryOrderRepository.update
    delete := MemoryOrderRepository.delete }

/-- Repository states reachable from the empty repository using only the
public `OrderService` operations (queries keep the state unchanged and
are omitted). -/
inductive Reachable : Mem → Prop
  | base : Reachable []
  | place (pay : ℚ → Except PaymentError String) (N : NotifierOps)
      (st : Mem) (fresh_id now : Nat) (c : Customer) (bs : List Beverage) :
      Reachable st → Reachable (place_order memRepo pay N st fresh_id now c bs).2
  | ready (N : NotifierOps) (st : Mem) (id : Nat) :
      Reachable st → Reachable (mark_order_ready memRepo N st id).2
  | cancel (N : NotifierOps) (st : Mem) (id : Nat) :
      Reachable st → Reachable (cancel_order memRepo N st id).2

/-- Invariant carried by every repository state the service can reach:
no stored order is `Preparing`, and every order is stored under its own id. -/
def GoodState (st : Mem) : Prop :=
  ∀ p ∈ st, p.2.status ≠ OrderStatus.Preparing ∧ p.2.id = p.1

/-- Concrete customer used to evaluate the theorems. -/
def custW : Customer :=
  { id := 1, name := "Alice", email := "alice@example.com", phone := none }

/-- Concrete beverage (a medium coffee at 3.50). -/
def bevW : Beverage :=
  { name := "Coffee", description := "Coffee (Medium)", price := 7 / 2 }

/-- Payment processor that always succeeds with id `PAY-1`. -/
def payW : ℚ → Except PaymentError String := fun _ => Except.ok "PAY-1"

/-- Payment processor that always fails. -/
def payFailW : ℚ → Except PaymentError String :=
  fun _ => Except.error PaymentError.InsufficientFunds

/-- Notifier whose sends always succeed. -/
def notW : NotifierOps :=
  { notify_order_placed := fun _ => Except.ok ()
    notify_order_ready := fun _ => Except.ok ()
    notify_order_cancelled := fun _ => Except.ok () }

/-- Notifier whose sends always fail. -/
def notFailW : NotifierOps :=
  { notify_order_placed := fun _ => Except.error (NotificationError.SendFailed "down")
    notify_order_ready := fun _ => Except.error (NotificationError.SendFailed "down")
    notify_order_cancelled := fun _ => Except.error (NotificationError.SendFailed "down") }

/-- The paid order produced by placing `bevW` for `custW` with uuid 7 at time 0. -/
def ordW : Order := (Order.new 7 0 custW (itemsOf [bevW])).mark_as_paid "PAY-1"

/-- Repository state after that one successful `place_order` run. -/
def stW : Mem := (place_order memRepo payW notW [] 7 0 custW [bevW]).2

/-- A completed order, for exercising the cancel guard. -/
def ordDoneW : Order := { ordW with id := 9, status := OrderStatus.Completed }

/-- A two-order repository state used to evaluate the repository contract. -/
def memW : Mem := [(7, ordW), (9, ordDoneW)]

/-- An order whose id is bound nowhere in `memW`. -/
def ordMissW : Order := { ordW with id := 11 }

theorem Mem.find_removeKey_self (m : Mem) (id : Nat) :
    Mem.find (Mem.removeKey m id) id = none := by
  induction m with
  | nil => rfl
  | cons p rest ih =>
    by_cases h : p.1 = id
    · simp [Mem.removeKey, h, ih]
    · simp [Mem.removeKey, Mem.find, h, ih]

theorem Mem.mem_removeKey {p : Nat × Order} {m : Mem} {id : Nat}
    (h : p ∈ Mem.removeKey m id) : p ∈ m := by
  induction m with
  | nil => simp [Mem.removeKey] at h
  | cons q rest ih =>
    by_cases hq : q.1 = id
    · simp only [Mem.removeKey, hq, if_pos] at h
      exact List.mem_cons_of_mem _ (ih h)
    · simp only [Mem.removeKey, hq, if_neg, not_false_iff, List.mem_cons] at h
      rcases h with h | h
      · exact h ▸ List.mem_cons_self _ _
      · exact List.mem_cons_of_mem _ (ih h)

theorem Mem.mem_insert {p : Nat × Order} {m : Mem} {id : Nat} {o : Order}
    (h : p ∈ Mem.insert m id o) : p = (id, o) ∨ p ∈ m := by
  simp only [Mem.insert, List.mem_cons] at h
  rcases h with h | h
  · exact Or.inl h
  · exact Or.inr (Mem.mem_removeKey h)

theorem Mem.find_mem {m : Mem} {id : Nat} {o : Order}
    (h : Mem.find m id = some o) : (id, o) ∈ m := by
  induction m with
  | nil => simp [Mem.find] at h
  | cons p rest ih =>
    by_cases hp : p.1 = id
    · simp only [Mem.find, hp, if_pos, Option.some.injEq] at h
      subst h
      have : p = (id, p.2) := by
        cases p
        simpa using hp
      exact this ▸ List.mem_cons_self _ _
    · simp only [Mem.find, hp, if_neg, not_false_iff] at h
      exact List.mem_cons_of_mem _ (ih h)

theorem mark_as_ready_noop {o : Order} (h : o.status ≠ OrderStatus.Preparing) :
    o.mark_as_ready = o := by
  simp [Order.mark_as_ready, h]

theorem cancel_of_ne_completed {o : Order} (h : o.status ≠ OrderStatus.Completed) :
    o.cancel = { o with status := OrderStatus.Cancelled } := by
  simp [Order.cancel, h]

theorem foldl_price_sum (l : List OrderItem) (a : ℚ) :
    l.foldl (fun acc it => acc + it.price * (it.quantity : ℚ)) a
      = a + (l.map (fun it => it.price * (it.quantity : ℚ))).sum := by
  induction l generalizing a with
  | nil => simp
  | cons it rest ih =>
    simp only [List.foldl_cons, List.map_cons, List.sum_cons, ih]
    ring

theorem place_order_cons {σ : Type} (R : RepoOps σ)
    (pay : ℚ → Except PaymentError String) (N : NotifierOps) (st : σ)
    (fresh_id now : Nat) (c : Customer) (b : Beverage) (t : List Beverage) :
    place_order R pay N st fresh_id now c (b :: t) =
      match pay (Order.new fresh_id now c (itemsOf (b :: t))).total_price with
      | Except.error e => (Except.error (OrderServiceError.PaymentFailed e), st)
      | Except.ok pid =>
        match R.save st ((Order.new fresh_id now c (itemsOf (b :: t))).mark_as_paid pid) with
        | (Except.error e, st2) => (Except.error (OrderServiceError.StorageFailed e), st2)
        | (Except.ok _, st2) =>
          (Except.ok ((Order.new fresh_id now c (itemsOf (b :: t))).mark_as_paid pid), st2) :=
  rfl

theorem cancel_id (o : Order) : (Order.cancel o).id = o.id := by
  unfold Order.cancel
  split <;> rfl

theorem get_order_mem_none {st : Mem} {id : Nat} (hf : Mem.find st id = none) :
    get_order memRepo st id = (Except.error OrderServiceError.OrderNotFound, st) := by
  simp [get_order, memRepo, MemoryOrderRepository.find_by_id, hf]

theorem get_order_mem_some {st : Mem} {id : Nat} {o : Order}
    (hf : Mem.find st id = some o) :
    get_order memRepo st id = (Except.ok o, st) := by
  simp [get_order, memRepo, MemoryOrderRepository.find_by_id, hf]

theorem mark_order_ready_not_found {N : NotifierOps} {st : Mem} {id : Nat}
    (hf : Mem.find st id = none) :
    mark_order_ready memRepo N st id = (Except.error OrderServiceError.OrderNotFound, st) := by
  simp [mark_order_ready, get_order_mem_none hf]

theorem mark_order_ready_found {N : NotifierOps} {st : Mem} {id : Nat} {o : Order}
    (hf : Mem.find st id = some o) (hid : o.id = id)
    (hnp : o.status ≠ OrderStatus.Preparing) :
    mark_order_ready memRepo N st id = (Except.ok (), Mem.insert st id o) := by
  have h1 : (get_order memRepo st id).1 = Except.ok o := by
    rw [get_order_mem_some hf]
  simp only [mark_order_ready, h1, mark_as_ready_noop hnp]
  simp [memRepo, MemoryOrderRepository.update, hid, hf]

theorem cancel_order_not_found {N : NotifierOps} {st : Mem} {id : Nat}
    (hf : Mem.find st id = none) :
    cancel_order memRepo N st id = (Except.error OrderServiceError.OrderNotFound, st) := by
  simp [cancel_order, get_order_mem_none hf]

theorem cancel_order_found_completed {N : NotifierOps} {st : Mem} {id : Nat} {o : Order}
    (hf : Mem.find st id = some o) (hc : o.status = OrderStatus.Completed) :
    cancel_order memRepo N st id =
      (Except.error (OrderServiceError.InvalidOrder "Cannot cancel completed order"), st) := by
  have h1 : (get_order memRepo st id).1 = Except.ok o := by
    rw [get_order_mem_some hf]
  simp [cancel_order, h1, hc]

theorem cancel_order_found_active {N : NotifierOps} {st : Mem} {id : Nat} {o : Order}
    (hf : Mem.find st id = some o) (hid : o.id = id)
    (hc : o.status ≠ OrderStatus.Completed) :
    cancel_order memRepo N st id = (Except.ok (), Mem.insert st id o.cancel) := by
  have h1 : (get_order memRepo st id).1 = Except.ok o := by
    rw [get_order_mem_some hf]
  have h2 : Mem.find st (Order.cancel o).id = some o := by
    rw [cancel_id, hid, hf]
  simp only [cancel_order, h1, hc, if_neg, ite_false]
  simp [memRepo, MemoryOrderRepository.update, h2, cancel_id, hid, hc, hf]

theorem goodState_place (pay : ℚ → Except PaymentError String) (N : NotifierOps)
    (st : Mem) (fresh_id now : Nat) (c : Customer) (bs : List Beverage)
    (h : GoodState st) :
    GoodState (place_order memRepo pay N st fresh_id now c bs).2 := by
  cases bs with
  | nil => simpa [place_order] using h
  | cons b t =>
    rw [place_order_cons]
    cases hpay : pay (Order.new fresh_id now c (itemsOf (b :: t))).total_price with
    | error e => simpa using h
    | ok pid =>
      by_cases hs :
          (Mem.find st ((Order.new fresh_id now c (itemsOf (b :: t))).mark_as_paid pid).id).isSome
      · simpa [memRepo, MemoryOrderRepository.save, hs] using h
      · simp only [memRepo, MemoryOrderRepository.save, hs, ite_false, Bool.false_eq_true,
          if_false]
        intro p hp
        rcases Mem.mem_insert hp with rfl | hp'
        · exact ⟨by simp [Order.mark_as_paid], rfl⟩
        · exact h p hp'

theorem goodState_ready (N : NotifierOps) (st : Mem) (id : Nat) (h : GoodState st) :
    GoodState (mark_order_ready memRepo N st id).2 := by
  cases hf : Mem.find st id with
  | none => rw [mark_order_ready_not_found hf]; exact h
  | some o =>
    obtain ⟨hnp, hid⟩ := h _ (Mem.find_mem hf)
    rw [mark_order_ready_found hf hid hnp]
    intro p hp
    rcases Mem.mem_insert hp with rfl | hp'
    · exact ⟨hnp, hid⟩
    · exact h p hp'

theorem goodState_cancel (N : NotifierOps) (st : Mem) (id : Nat) (h : GoodState st) :
    GoodState (cancel_order memRepo N st id).2 := by
  cases hf : Mem.find st id with
  | none => rw [cancel_order_not_found hf]; exact h
  | some o =>
    obtain ⟨_, hid⟩ := h _ (Mem.find_mem hf)
    by_cases hc : o.status = OrderStatus.Completed
    · rw [cancel_order_found_completed hf hc]; exact h
    · rw [cancel_order_found_active hf hid hc]
      intro p hp
      rcases Mem.mem_insert hp with rfl | hp'
      · refine ⟨?_, by rw [cancel_id, hid]⟩
        rw [cancel_of_ne_completed hc]
        simp
      · exact h p hp'

theorem reachable_goodState {st : Mem} (h : Reachable st) : GoodState st := by
  induction h with
  | base => intro p hp; simp at hp
  | place pay N st fresh_id now c bs _ ih => exact goodState_place pay N st fresh_id now c bs ih
  | ready N st id _ ih => exact goodState_ready N st id ih
  | cancel N st id _ ih => exact goodState_cancel N st id ih

/-- C1: `place_order` never persists an order before payment success:
for every repository, payment processor and notifier, if
`process_payment` returns an error on the order's total, `place_order`
returns `PaymentFailed` wrapping that error and the repository state is
exactly the state before the call (`save` is never reached). -/
theorem place_order_payment_failure_no_persist {σ : Type} (R : RepoOps σ)
    (pay : ℚ → Except PaymentError String) (N : NotifierOps) (st : σ)
    (fresh_id now : Nat) (c : Customer) (bs : List Beverage) (e : PaymentError)
    (hne : bs ≠ [])
    (hpay : pay (Order.new fresh_id now c (itemsOf bs)).total_price = Except.error e) :
    place_order R pay N st fresh_id now c bs =
      (Except.error (OrderServiceError.PaymentFailed e), st) := by
  cases bs with
  | nil => exact absurd rfl hne
  | cons b t => rw [place_order_cons, hpay]

/-- Witness for C1: a concrete run where the payment processor rejects,
returning `PaymentFailed` and leaving the empty repository untouched. -/
theorem place_order_payment_failure_no_persist_witness :
    [bevW] ≠ ([] : List Beverage)
    ∧ payFailW (Order.new 7 0 custW (itemsOf [bevW])).total_price
        = Except.error PaymentError.InsufficientFunds
    ∧ place_order memRepo payFailW notW [] 7 0 custW [bevW]
        = (Except.error (OrderServiceError.PaymentFailed PaymentError.InsufficientFunds), []) :=
  ⟨by simp, rfl,
    place_order_payment_failure_no_persist memRepo payFailW notW [] 7 0 custW [bevW]
      PaymentError.InsufficientFunds (by simp) rfl⟩

/-- C2: on successful payment and save, `place_order` returns `Ok` with
the paid order: its status is `Paid` and its payment id is present (set
to the processor-returned id).  The notifier is universally quantified
and the result does not depend on it, so notification failure never
turns the result into an error. -/
theorem place_order_success_paid {σ : Type} (R : RepoOps σ)
    (pay : ℚ → Except PaymentError String) (N : NotifierOps) (st : σ)
    (fresh_id now : Nat) (c : Customer) (bs : List Beverage) (pid : String) (st' : σ)
    (hne : bs ≠ [])
    (hpay : pay (Order.new fresh_id now c (itemsOf bs)).total_price = Except.ok pid)
    (hsave : R.save st ((Order.new fresh_id now c (itemsOf bs)).mark_as_paid pid)
        = (Except.ok (), st')) :
    place_order R pay N st fresh_id now c bs =
      (Except.ok ((Order.new fresh_id now c (itemsOf bs)).mark_as_paid pid), st')
    ∧ ((Order.new fresh_id now c (itemsOf bs)).mark_as_paid pid).status = OrderStatus.Paid
    ∧ ((Order.new fresh_id now c (itemsOf bs)).mark_as_paid pid).payment_id = some pid := by
  refine ⟨?_, rfl, rfl⟩
  cases bs with
  | nil => exact absurd rfl hne
  | cons b t =>
    rw [place_order_cons]
    simp only [hpay, hsave]

/-- Witness for C2: a concrete successful run with a notifier whose send
fails; the result is still `Ok` with a `Paid` order carrying the pid. -/
theorem place_order_success_paid_witness :
    place_order memRepo payW notFailW [] 7 0 custW [bevW] = (Except.ok ordW, [(7, ordW)])
    ∧ ordW.status = OrderStatus.Paid
    ∧ ordW.payment_id = some "PAY-1" := by
  have h := place_order_success_paid memRepo payW notFailW [] 7 0 custW [bevW] "PAY-1"
    [(7, ordW)] (by simp) rfl rfl
  exact ⟨h.1, h.2.1, h.2.2⟩

/-- C3: `place_order` on an empty beverage list fails with
`InvalidOrder` and leaves the repository state untouched; the payment
processor and the repository are universally quantified and the result
does not depend on them, so neither collaborator is consulted. -/
theorem place_order_empty_invalid {σ : Type} (R : RepoOps σ)
    (pay : ℚ → Except PaymentError String) (N : NotifierOps) (st : σ)
    (fresh_id now : Nat) (c : Customer) :
    place_order R pay N st fresh_id now c [] =
      (Except.error (OrderServiceError.InvalidOrder "Order must contain at least one item"),
        st) :=
  rfl

/-- C4: the entity transition methods implement exactly the guard table
of the lifecycle state machine; each is a total function (no error is
returned or signalled), `mark_as_paid` is unconditional, the other
transitions fire only from their required status and are no-ops
otherwise, and `cancel` fires from every status except `Completed`. -/
theorem order_transition_guard_table (o : Order) (pid : String) :
    o.mark_as_paid pid = { o with status := OrderStatus.Paid, payment_id := some pid }
    ∧ (o.status = OrderStatus.Paid →
        o.mark_as_preparing = { o with status := OrderStatus.Preparing })
    ∧ (o.status ≠ OrderStatus.Paid → o.mark_as_preparing = o)
    ∧ (o.status = OrderStatus.Preparing →
        o.mark_as_ready = { o with status := OrderStatus.Ready })
    ∧ (o.status ≠ OrderStatus.Preparing → o.mark_as_ready = o)
    ∧ (o.status = OrderStatus.Ready →
        o.mark_as_completed = { o with status := OrderStatus.Completed })
    ∧ (o.status ≠ OrderStatus.Ready → o.mark_as_completed = o)
    ∧ (o.status ≠ OrderStatus.Completed →
        o.cancel = { o with status := OrderStatus.Cancelled })
    ∧ (o.status = OrderStatus.Completed → o.cancel = o) := by
  refine ⟨rfl, ?_, ?_, ?_, ?_, ?_, ?_, ?_, ?_⟩ <;> intro h <;>
    simp [Order.mark_as_preparing, Order.mark_as_ready, Order.mark_as_completed,
      Order.cancel, h]

/-- Witness for C4: the guard table evaluated on a concrete `Pending`
order, whose `mark_as_preparing` is a no-op and whose `cancel` fires. -/
theorem order_transition_guard_table_witness :
    (Order.new 1 0 custW []).status ≠ OrderStatus.Paid
    ∧ (Order.new 1 0 custW []).mark_as_preparing = Order.new 1 0 custW []
    ∧ (Order.new 1 0 custW []).status ≠ OrderStatus.Completed
    ∧ (Order.new 1 0 custW []).cancel
        = { Order.new 1 0 custW [] with status := OrderStatus.Cancelled } :=
  ⟨by decide,
    (order_transition_guard_table (Order.new 1 0 custW []) "x").2.2.1 (by decide),
    by decide,
    (order_transition_guard_table (Order.new 1 0 custW []) "x").2.2.2.2.2.2.2.1 (by decide)⟩

/-- C5: `cancel_order` first loads the order (`OrderNotFound` when the
lookup yields nothing); when the loaded order is `Completed` it returns
`InvalidOrder` with the state untouched (no update, no notification);
in every other status it persists the order with status `Cancelled` via
`update`, surfaces an update failure as `StorageFailed`, and otherwise
returns `Ok` — the notifier is universally quantified and the result
never depends on it. -/
theorem cancel_order_policy {σ : Type} (R : RepoOps σ) (N : NotifierOps)
    (st : σ) (id : Nat) :
    (R.find_by_id st id = Except.ok none →
      cancel_order R N st id = (Except.error OrderServiceError.OrderNotFound, st))
    ∧ (∀ o, R.find_by_id st id = Except.ok (some o) →
      o.status = OrderStatus.Completed →
      cancel_order R N st id =
        (Except.error (OrderServiceError.InvalidOrder "Cannot cancel completed order"), st))
    ∧ (∀ o st', R.find_by_id st id = Except.ok (some o) →
      o.status ≠ OrderStatus.Completed →
      R.update st { o with status := OrderStatus.Cancelled } = (Except.ok (), st') →
      cancel_order R N st id = (Except.ok (), st'))
    ∧ (∀ o e st', R.find_by_id st id = Except.ok (some o) →
      o.status ≠ OrderStatus.Completed →
      R.update st { o with status := OrderStatus.Cancelled } = (Except.error e, st') →
      cancel_order R N st id =
        (Except.error (OrderServiceError.StorageFailed e), st')) := by
  refine ⟨?_, ?_, ?_, ?_⟩
  · intro hf
    simp [cancel_order, get_order, hf]
  · intro o hf hc
    simp [cancel_order, get_order, hf, hc]
  · intro o st' hf hc hupd
    simp [cancel_order, get_order, hf, hc, cancel_of_ne_completed hc, hupd]
  · intro o e st' hf hc hupd
    simp [cancel_order, get_order, hf, hc, cancel_of_ne_completed hc, hupd]

/-- Witness for C5: on a concrete repository the completed order is
rejected with `InvalidOrder` and the state untouched, while a `Paid`
order is cancelled and persisted even with a failing notifier. -/
theorem cancel_order_policy_witness :
    memRepo.find_by_id memW 9 = Except.ok (some ordDoneW)
    ∧ ordDoneW.status = OrderStatus.Completed
    ∧ cancel_order memRepo notW memW 9 =
        (Except.error (OrderServiceError.InvalidOrder "Cannot cancel completed order"), memW)
    ∧ cancel_order memRepo notFailW memW 7 =
        (Except.ok (), Mem.insert memW 7 { ordW with status := OrderStatus.Cancelled }) :=
  ⟨rfl, rfl,
    (cancel_order_policy memRepo notW memW 9).2.1 ordDoneW rfl rfl,
    (cancel_order_policy memRepo notFailW memW 7).2.2.1 ordW
      (Mem.insert memW 7 { ordW with status := OrderStatus.Cancelled }) rfl
      (by decide) rfl⟩

/-- C6: the total price of a constructed order equals the sum over its
items of price times quantity (also for the empty list), the remaining
constructor fields are stored as given, and no lifecycle transition
ever changes `total_price`, `items`, `id`, `customer` or `created_at`. -/
theorem order_new_total_and_frozen_fields :
    (∀ (fresh_id now : Nat) (c : Customer) (items : List OrderItem),
      (Order.new fresh_id now c items).total_price
        = (items.map (fun it => it.price * (it.quantity : ℚ))).sum
      ∧ (Order.new fresh_id now c items).id = fresh_id
      ∧ (Order.new fresh_id now c items).customer = c
      ∧ (Order.new fresh_id now c items).items = items
      ∧ (Order.new fresh_id now c items).created_at = now)
    ∧ (∀ (o : Order) (pid : String),
      (o.mark_as_paid pid).frozen = o.frozen
      ∧ o.mark_as_preparing.frozen = o.frozen
      ∧ o.mark_as_ready.frozen = o.frozen
      ∧ o.mark_as_completed.frozen = o.frozen
      ∧ o.cancel.frozen = o.frozen) := by
  constructor
  · intro fresh_id now c items
    refine ⟨?_, rfl, rfl, rfl, rfl⟩
    simpa using foldl_price_sum items 0
  · intro o pid
    refine ⟨rfl, ?_, ?_, ?_, ?_⟩
    · unfold Order.mark_as_preparing
      split <;> rfl
    · unfold Order.mark_as_ready
      split <;> rfl
    · unfold Order.mark_as_completed
      split <;> rfl
    · unfold Order.cancel
      split <;> rfl

/-- C7: the in-memory repository honors the store contract: `save` on a
present id fails with `AlreadyExists` leaving the state unchanged,
`update` on an absent id fails with `NotFound` leaving the state
unchanged, `delete` answers `Ok false` on an absent id and `Ok true`
exactly once per stored record (a repeated delete answers `Ok false`). -/
theorem memory_repository_contract (m : Mem) (o : Order) (id : Nat) :
    ((Mem.find m o.id).isSome →
      MemoryOrderRepository.save m o =
        (Except.error (RepositoryError.AlreadyExists
          ("Order " ++ toString o.id ++ " already exists")), m))
    ∧ (Mem.find m o.id = none →
      MemoryOrderRepository.update m o =
        (Except.error (RepositoryError.NotFound
          ("Order " ++ toString o.id ++ " not found")), m))
    ∧ (Mem.find m id = none →
      (MemoryOrderRepository.delete m id).1 = Except.ok false)
    ∧ ((Mem.find m id).isSome →
      (MemoryOrderRepository.delete m id).1 = Except.ok true
      ∧ (MemoryOrderRepository.delete ((MemoryOrderRepository.delete m id).2) id).1
          = Except.ok false) := by
  refine ⟨?_, ?_, ?_, ?_⟩
  · intro h
    simp [MemoryOrderRepository.save, h]
  · intro h
    simp [MemoryOrderRepository.update, h]
  · intro h
    simp [MemoryOrderRepository.delete, h]
  · intro h
    refine ⟨by simp [MemoryOrderRepository.delete, h], ?_⟩
    simp [MemoryOrderRepository.delete, Mem.find_removeKey_self]

/-- Witness for C7: the contract evaluated on a concrete two-order
repository, with a present id for save/delete and absent ids for
update/delete. -/
theorem memory_repository_contract_witness :
    MemoryOrderRepository.save memW ordW =
      (Except.error (RepositoryError.AlreadyExists
        ("Order " ++ toString ordW.id ++ " already exists")), memW)
    ∧ MemoryOrderRepository.update memW ordMissW =
      (Except.error (RepositoryError.NotFound
        ("Order " ++ toString ordMissW.id ++ " not found")), memW)
    ∧ (MemoryOrderRepository.delete memW 42).1 = Except.ok false
    ∧ (MemoryOrderRepository.delete memW 7).1 = Except.ok true
    ∧ (MemoryOrderRepository.delete ((MemoryOrderRepository.delete memW 7).2) 7).1
        = Except.ok false := by
  have h1 := memory_repository_contract memW ordW 7
  have h2 := memory_repository_contract memW ordMissW 42
  exact ⟨h1.1 rfl, h2.2.1 rfl, h2.2.2.1 rfl, (h1.2.2.2 rfl).1, (h1.2.2.2 rfl).2⟩

/-- C8: the status `Preparing` is unreachable through the public
service interface: in every repository state reachable through
`OrderService` operations no stored order is `Preparing`, so on such an
order `mark_as_ready` inside `mark_order_ready` is a no-op and
`mark_order_ready` persists the order with its status unchanged while
returning `Ok`. -/
theorem preparing_unreachable_mark_ready_noop (st : Mem) (id : Nat) (o : Order)
    (N : NotifierOps) (h : Reachable st) (hf : Mem.find st id = some o) :
    (∀ p ∈ st, p.2.status ≠ OrderStatus.Preparing)
    ∧ o.mark_as_ready = o
    ∧ mark_order_ready memRepo N st id = (Except.ok (), Mem.insert st id o) := by
  have hg := reachable_goodState h
  obtain ⟨hnp, hid⟩ := hg _ (Mem.find_mem hf)
  exact ⟨fun p hp => (hg p hp).1, mark_as_ready_noop hnp,
    mark_order_ready_found hf hid hnp⟩

/-- Witness for C8: the state after one successful `place_order` is
reachable, holds the paid order, and `mark_order_ready` re-persists it
unchanged returning `Ok`. -/
theorem preparing_unreachable_mark_ready_noop_witness :
    Reachable stW
    ∧ Mem.find stW 7 = some ordW
    ∧ ordW.mark_as_ready = ordW
    ∧ mark_order_ready memRepo notW stW 7 = (Except.ok (), Mem.insert stW 7 ordW) := by
  have hr : Reachable stW := Reachable.place payW notW [] 7 0 custW [bevW] Reachable.base
  have hf : Mem.find stW 7 = some ordW := rfl
  have h := preparing_unreachable_mark_ready_noop stW 7 ordW notW hr hf
  exact ⟨hr, hf, h.2.1, h.2.2⟩

/-- C9: every order returned by a successful `place_order` has quantity
1 on each of its items (one line item per input beverage), so its total
price is the plain sum of the input beverages' unit prices. -/
theorem place_order_unit_quantities {σ : Type} (R : RepoOps σ)
    (pay : ℚ → Except PaymentError String) (N : NotifierOps) (st : σ)
    (fresh_id now : Nat) (c : Customer) (bs : List Beverage) (o : Order) (st' : σ)
    (h : place_order R pay N st fresh_id now c bs = (Except.ok o, st')) :
    (∀ it ∈ o.items, it.quantity = 1)
    ∧ o.total_price = (bs.map (fun b => b.price)).sum := by
  cases bs with
  | nil => exact absurd h (by simp [place_order])
  | cons b t =>
    rw [place_order_cons] at h
    cases hpay : pay (Order.new fresh_id now c (itemsOf (b :: t))).total_price with
    | error e =>
      simp [hpay] at h
    | ok pid =>
      simp only [hpay] at h
      rcases hsv : R.save st ((Order.new fresh_id now c (itemsOf (b :: t))).mark_as_paid pid)
        with ⟨r, st2⟩
      rw [hsv] at h
      cases r with
      | error e => simp at h
      | ok u =>
        simp only [Prod.mk.injEq, Except.ok.injEq] at h
        obtain ⟨ho, _⟩ := h
        subst ho
        constructor
        · intro it hit
          simp only [Order.mark_as_paid, Order.new, itemsOf, List.mem_map] at hit
          obtain ⟨bv, _, hbv⟩ := hit
          rw [← hbv]
        · simp only [Order.mark_as_paid, Order.new]
          rw [foldl_price_sum]
          simp [itemsOf, List.map_map, Function.comp_def]

/-- Witness for C9: the concrete successful run returns the order whose
single item has quantity 1 and whose total is the coffee's price. -/
theorem place_order_unit_quantities_witness :
    place_order memRepo payW notW [] 7 0 custW [bevW] = (Except.ok ordW, [(7, ordW)])
    ∧ (∀ it ∈ ordW.items, it.quantity = 1)
    ∧ ordW.total_price = ([bevW].map (fun b => b.price)).sum := by
  have h := place_order_unit_quantities memRepo payW notW [] 7 0 custW [bevW] ordW
    [(7, ordW)] rfl
  exact ⟨rfl, h.1, h.2⟩

/-- C10: the query operations `get_order`, `list_customer_orders` and
`list_all_orders` never modify the repository state — for every
repository the state they return alongside the result is the state they
were given, whatever the result is — and they never invoke the payment
processor or notifier (neither occurs in their definitions). -/
theorem query_operations_preserve_state {σ : Type} (R : RepoOps σ) (st : σ)
    (id : Nat) (email : String) :
    (get_order R st id).2 = st
    ∧ (list_customer_orders R st email).2 = st
    ∧ (list_all_orders R st).2 = st := by
  refine ⟨?_, ?_, ?_⟩
  · cases hf : R.find_by_id st id with
    | error e => simp [get_order, hf]
    | ok oo => cases oo <;> simp [get_order, hf]
  · cases hf : R.find_by_customer_email st email with
    | error e => simp [list_customer_orders, hf]
    | ok l => simp [list_customer_orders, hf]
  · cases hf : R.list_all st with
    | error e => simp [list_all_orders, hf]
    | ok l => simp [list_all_orders, hf]

end CoffeeShop
